import Mathlib

/-!
Shallow embedding of the MaiBot expression-selector
(`src/chat/express/expression_selector.py`) and PFC reply generator
(`src/plugins/PFC/reply_generator.py`).

Numbers: Python floats are modelled as rationals (the code only adds,
compares and clamps, never relying on binary rounding).  External effects
(database, RNG, LLM transport, JSON repair, chat observer) are modelled as
explicit parameters; a Python exception is an `Except.error`.
-/

set_option autoImplicit false

namespace MaiBot

/-! ## Bytes, UTF-8 and MD5 (models `hashlib.md5(key.encode()).hexdigest()`) -/

/-- UTF-8 encoding of one character, as byte values. -/
def utf8EncodeCharBytes (c : Char) : List Nat :=
  let n := c.toNat
  if n < 128 then [n]
  else if n < 2048 then [192 + n / 64, 128 + n % 64]
  else if n < 65536 then [224 + n / 4096, 128 + n / 64 % 64, 128 + n % 64]
  else [240 + n / 262144, 128 + n / 4096 % 64, 128 + n / 64 % 64, 128 + n % 64]

/-- UTF-8 bytes of a string (Python `str.encode()`). -/
def utf8Bytes (s : String) : List Nat :=
  s.data.flatMap utf8EncodeCharBytes

/-- 2^32, the word modulus of MD5. -/
def w32 : Nat := 4294967296

/-- Rotate a 32-bit word left by `n` (0 < n < 32). -/
def rotl32 (x n : Nat) : Nat :=
  ((x <<< n) % w32) ||| (x >>> (32 - n))

def md5F (b c d : Nat) : Nat := (b &&& c) ||| ((b ^^^ 4294967295) &&& d)

def md5G (b c d : Nat) : Nat := (d &&& b) ||| ((d ^^^ 4294967295) &&& c)

def md5H (b c d : Nat) : Nat := b ^^^ c ^^^ d

def md5I (b c d : Nat) : Nat := c ^^^ (b ||| (d ^^^ 4294967295))

/-- The 64 MD5 sine-derived constants (RFC 1321). -/
def md5K : List Nat :=
  [0xd76aa478, 0xe8c7b756, 0x242070db, 0xc1bdceee,
   0xf57c0faf, 0x4787c62a, 0xa8304613, 0xfd469501,
   0x698098d8, 0x8b44f7af, 0xffff5bb1, 0x895cd7be,
   0x6b901122, 0xfd987193, 0xa679438e, 0x49b40821,
   0xf61e2562, 0xc040b340, 0x265e5a51, 0xe9b6c7aa,
   0xd62f105d, 0x02441453, 0xd8a1e681, 0xe7d3fbc8,
   0x21e1cde6, 0xc33707d6, 0xf4d50d87, 0x455a14ed,
   0xa9e3e905, 0xfcefa3f8, 0x676f02d9, 0x8d2a4c8a,
   0xfffa3942, 0x8771f681, 0x6d9d6122, 0xfde5380c,
   0xa4beea44, 0x4bdecfa9, 0xf6bb4b60, 0xbebfbc70,
   0x289b7ec6, 0xeaa127fa, 0xd4ef3085, 0x04881d05,
   0xd9d4d039, 0xe6db99e5, 0x1fa27cf8, 0xc4ac5665,
   0xf4292244, 0x432aff97, 0xab9423a7, 0xfc93a039,
   0x655b59c3, 0x8f0ccc92, 0xffeff47d, 0x85845dd1,
   0x6fa87e4f, 0xfe2ce6e0, 0xa3014314, 0x4e0811a1,
   0xf7537e82, 0xbd3af235, 0x2ad7d2bb, 0xeb86d391]

/-- The 64 MD5 per-round left-rotation amounts. -/
def md5S : List Nat :=
  [7, 12, 17, 22, 7, 12, 17, 22, 7, 12, 17, 22, 7, 12, 17, 22,
   5, 9, 14, 20, 5, 9, 14, 20, 5, 9, 14, 20, 5, 9, 14, 20,
   4, 11, 16, 23, 4, 11, 16, 23, 4, 11, 16, 23, 4, 11, 16, 23,
   6, 10, 15, 21, 6, 10, 15, 21, 6, 10, 15, 21, 6, 10, 15, 21]

structure MD5State where
  a : Nat
  b : Nat
  c : Nat
  d : Nat

/-- Little-endian 32-bit word number `j` of a 64-byte block. -/
def le32 (block : List Nat) (j : Nat) : Nat :=
  block.getD (4 * j) 0 + block.getD (4 * j + 1) 0 * 256 +
    block.getD (4 * j + 2) 0 * 65536 + block.getD (4 * j + 3) 0 * 16777216

/-- One of the 64 MD5 rounds. -/
def md5Round (block : List Nat) (st : MD5State) (i : Nat) : MD5State :=
  let f :=
    if i < 16 then md5F st.b st.c st.d
    else if i < 32 then md5G st.b st.c st.d
    else if i < 48 then md5H st.b st.c st.d
    else md5I st.b st.c st.d
  let g :=
    if i < 16 then i
    else if i < 32 then (5 * i + 1) % 16
    else if i < 48 then (3 * i + 5) % 16
    else (7 * i) % 16
  let tmp := (st.a + f + md5K.getD i 0 + le32 block g) % w32
  ⟨st.d, (st.b + rotl32 tmp (md5S.getD i 0)) % w32, st.b, st.c⟩

/-- Process one 512-bit block. -/
def md5Block (st0 : MD5State) (block : List Nat) : MD5State :=
  let r := (List.range 64).foldl (md5Round block) st0
  ⟨(st0.a + r.a) % w32, (st0.b + r.b) % w32, (st0.c + r.c) % w32, (st0.d + r.d) % w32⟩

/-- Eight little-endian bytes of the 64-bit message bit length. -/
def le64Bytes (n : Nat) : List Nat :=
  [n % 256, n / 256 % 256, n / 65536 % 256, n / 16777216 % 256,
   n / 4294967296 % 256, n / 1099511627776 % 256,
   n / 281474976710656 % 256, n / 72057594037927936 % 256]

/-- MD5 padding: a 0x80 byte, zeros to 56 mod 64, then the bit length. -/
def md5Pad (msg : List Nat) : List Nat :=
  msg ++ [128] ++ List.replicate ((119 - msg.length % 64) % 64) 0 ++
    le64Bytes (msg.length * 8 % (w32 * w32))

/-- Split into 64-byte chunks (structural recursion on a length fuel). -/
def chunks64Aux : Nat → List Nat → List (List Nat)
  | 0, _ => []
  | _, [] => []
  | fuel + 1, l => l.take 64 :: chunks64Aux fuel (l.drop 64)

def chunks64 (l : List Nat) : List (List Nat) :=
  chunks64Aux l.length l

/-- Four little-endian bytes of a 32-bit word. -/
def wordLEBytes (n : Nat) : List Nat :=
  [n % 256, n / 256 % 256, n / 65536 % 256, n / 16777216 % 256]

/-- The 16-byte MD5 digest of a byte sequence. -/
def md5Digest (msg : List Nat) : List Nat :=
  let st := (chunks64 (md5Pad msg)).foldl md5Block
    ⟨0x67452301, 0xefcdab89, 0x98badcfe, 0x10325476⟩
  wordLEBytes st.a ++ wordLEBytes st.b ++ wordLEBytes st.c ++ wordLEBytes st.d

/-- Lowercase hexadecimal digit. -/
def hexChar (n : Nat) : Char :=
  if n < 10 then Char.ofNat (48 + n) else Char.ofNat (87 + n)

/-- Lowercase hex rendering of bytes (Python `hexdigest()`). -/
def bytesToHex (bs : List Nat) : String :=
  String.mk (bs.flatMap fun b => [hexChar (b / 16), hexChar (b % 16)])

/-- `hashlib.md5(s.encode()).hexdigest()`. -/
def md5HexUtf8 (s : String) : String :=
  bytesToHex (md5Digest (utf8Bytes s))

/-! ## Python string helpers -/

/-- Python `str.split(sep)` for a one-character separator: every occurrence
splits, empty fields are kept, the empty string gives one empty field. -/
def splitOnChar (sep : Char) : List Char → List (List Char)
  | [] => [[]]
  | c :: cs =>
    let r := splitOnChar sep cs
    if c = sep then [] :: r
    else
      match r with
      | [] => [[c]]
      | h :: t => (c :: h) :: t

def pySplit (s : String) (sep : Char) : List String :=
  (splitOnChar sep s.data).map String.mk

/-- Python `sep.join(parts)`. -/
def strJoin (sep : String) : List String → String
  | [] => ""
  | [x] => x
  | x :: xs => x ++ sep ++ strJoin sep xs

/-! ## Stream-descriptor parsing and expression groups -/

/-- `ExpressionSelector._parse_stream_config_to_chat_id`: parse
`platform:id:type` and hash the canonical key. -/
def parse_stream_config_to_chat_id (stream_config_str : String) : Option String :=
  let parts := pySplit stream_config_str ':'
  if parts.length ≠ 3 then none
  else
    let platform := parts.getD 0 ""
    let id_str := parts.getD 1 ""
    let stream_type := parts.getD 2 ""
    let components :=
      if stream_type = "group" then [platform, id_str]
      else [platform, id_str, "private"]
    some (md5HexUtf8 (strJoin "_" components))

/-- `ExpressionSelector.get_related_chat_ids`, with the configured
`expression_groups` made an explicit parameter. -/
def get_related_chat_ids (groups : List (List String)) (chat_id : String) : List String :=
  match groups with
  | [] => [chat_id]
  | g :: gs =>
    let group_chat_ids := g.filterMap parse_stream_config_to_chat_id
    if chat_id ∈ group_chat_ids then group_chat_ids
    else get_related_chat_ids gs chat_id

/-! ## Weighted sampler (`weighted_sample`)

`random.choices(range(len(pool)), weights=w)[0]` is modelled by a draw
oracle giving the index drawn at each step; a call that raises (invalid
draw) is `none`.  The whole function returns `none` exactly when a Python
exception would escape it. -/

/-- `l.pop(i)`: the removed element and the remaining list, or `none`
(Python `IndexError`) when `i` is out of range. -/
def popIdx {α : Type} (l : List α) (i : Nat) : Option (α × List α) :=
  match l.get? i with
  | some a => some (a, l.eraseIdx i)
  | none => none

/-- Outcome of `random.choices(range(poolLen), weights=...)[0]` at step `t`:
the oracle's draw if it is a valid index, else an exception. -/
def randomChoiceIdx (oracle : Nat → Nat) (t : Nat) (poolLen : Nat) : Option Nat :=
  if oracle t < poolLen then some (oracle t) else none

/-- The `for _ in range(k)` loop of `weighted_sample`. -/
def sampleLoop {α : Type} (oracle : Nat → Nat) :
    Nat → Nat → List α → List ℚ → List α → Option (List α)
  | 0, _, _, _, acc => some acc
  | fuel + 1, t, pool, w, acc =>
    if pool.isEmpty then some acc
    else
      match randomChoiceIdx oracle t pool.length with
      | none => none
      | some idx =>
        match popIdx pool idx, popIdx w idx with
        | some (a, pool'), some (_, w') => sampleLoop oracle fuel (t + 1) pool' w' (acc ++ [a])
        | _, _ => none

/-- `weighted_sample(population, weights, k)`. -/
def weighted_sample {α : Type} (oracle : Nat → Nat)
    (population : List α) (weights : List ℚ) (k : Int) : Option (List α) :=
  if population.isEmpty ∨ weights.isEmpty ∨ k ≤ 0 then some []
  else if (population.length : Int) ≤ k then some population
  else sampleLoop oracle k.toNat 0 population weights []

/-! ## Persisted expression store and batch reinforcement -/

/-- A persisted `Expression` row. -/
structure ExprRecord where
  id : Int
  chat_id : String
  type : String
  situation : String
  style : String
  count : ℚ
  last_active_time : ℚ
  create_date : Option ℚ
deriving DecidableEq

def defaultRecord : ExprRecord :=
  ⟨0, "", "", "", "", 0, 0, none⟩

/-- The fields of an update-request dictionary that
`update_expressions_count_batch` reads (`none` = key absent). -/
structure ExprEntry where
  source_id : Option String
  type : Option String
  situation : Option String
  style : Option String
deriving DecidableEq

/-- Python falsiness of `dict.get(key)` on a string field:
`None` (absent) or the empty string. -/
def falsyStr : Option String → Bool
  | none => true
  | some s => s == ""

/-- The dedup key `(source_id, type, situation, style)`. -/
abbrev ExprKey := String × String × String × String

/-- Key extraction for one entry: `none` when the entry is skipped for a
missing (falsy) `source_id`, `situation` or `style`; the type field
defaults to `"style"`. -/
def entryKey (e : ExprEntry) : Option ExprKey :=
  if falsyStr e.source_id || falsyStr e.situation || falsyStr e.style then none
  else some (e.source_id.getD "", e.type.getD "style", e.situation.getD "", e.style.getD "")

/-- Insertion into `updates_by_key`: first occurrence wins, insertion
order preserved. -/
def insertKey (ks : List ExprKey) (k : ExprKey) : List ExprKey :=
  if k ∈ ks then ks else ks ++ [k]

/-- The keys of `updates_by_key`, in Python dict (insertion) order. -/
def dedupKeys (entries : List ExprEntry) : List ExprKey :=
  entries.foldl (fun ks e =>
    match entryKey e with
    | none => ks
    | some k => insertKey ks k) []

/-- The key determined by a record's own fields. -/
def recordKey (r : ExprRecord) : ExprKey :=
  (r.chat_id, r.type, r.situation, r.style)

/-- The `where` clause of the per-key query. -/
def recordMatches (k : ExprKey) (r : ExprRecord) : Bool :=
  decide (recordKey r = k)

/-- One reinforcement write: clamp the count at 5.0 and stamp the time. -/
def applyIncrement (now inc : ℚ) (r : ExprRecord) : ExprRecord :=
  { r with count := min (r.count + inc) 5, last_active_time := now }

/-- `query.get()` followed by `.save()`: update the first matching row;
no row is touched or created when none matches (`query.exists()` false). -/
def updateFirstMatch (now inc : ℚ) (k : ExprKey) : List ExprRecord → List ExprRecord
  | [] => []
  | r :: rs =>
    if recordMatches k r then applyIncrement now inc r :: rs
    else r :: updateFirstMatch now inc k rs

/-- `ExpressionSelector.update_expressions_count_batch`, with the store and
the current time explicit. -/
def update_expressions_count_batch (now : ℚ) (expressions_to_update : List ExprEntry)
    (increment : ℚ) (db : List ExprRecord) : List ExprRecord :=
  (dedupKeys expressions_to_update).foldl
    (fun d k => updateFirstMatch now increment k d) db

/-! ## LLM-driven selection (`select_suitable_expressions_llm`) -/

/-- JSON values, as produced by `repair_json` / `json.loads`. -/
inductive JVal where
  | jnull
  | jbool (b : Bool)
  | jint (n : Int)
  | jnum (q : ℚ)
  | jstr (s : String)
  | jlist (l : List JVal)
  | jobj (fields : List (String × JVal))

/-- Python `isinstance(v, int)` with the integer value: JSON integers, and
booleans (`bool` is a subclass of `int`, `True == 1`, `False == 0`). -/
def pyInt : JVal → Option Int
  | .jint n => some n
  | .jbool b => some (if b then 1 else 0)
  | _ => none

/-- Dictionary key lookup (`result["selected_situations"]`). -/
def jlookup (fields : List (String × JVal)) (key : String) : Option JVal :=
  match fields with
  | [] => none
  | (k, v) :: rest => if k = key then some v else jlookup rest key

/-- One dictionary built by `get_random_expressions` (all keys present). -/
structure StyleExpr where
  id : Int
  situation : String
  style : String
  count : ℚ
  last_active_time : ℚ
  source_id : String
  type : String
  create_date : ℚ
deriving DecidableEq

def defaultStyleExpr : StyleExpr :=
  ⟨0, "", "", 0, 0, "", "", 0⟩

/-- The dictionary row built from a persisted record (`create_date` falls
back to `last_active_time`). -/
def toStyleExpr (r : ExprRecord) : StyleExpr :=
  ⟨r.id, r.situation, r.style, r.count, r.last_active_time, r.chat_id, "style",
    r.create_date.getD r.last_active_time⟩

/-- `ExpressionSelector.get_random_expressions`: load all `"style"` rows of
the related chats and draw `total_num` of them by `count` weight. -/
def get_random_expressions (oracle : Nat → Nat) (groups : List (List String))
    (db : List ExprRecord) (chat_id : String) (total_num : Int) :
    Option (List StyleExpr) :=
  let related_chat_ids := get_related_chat_ids groups chat_id
  let style_exprs := (db.filter fun r =>
    decide (r.chat_id ∈ related_chat_ids) && decide (r.type = "style")).map toStyleExpr
  if style_exprs.isEmpty then some []
  else weighted_sample oracle style_exprs (style_exprs.map (·.count)) total_num

/-- The selection entry built from a selected dictionary, as read back by
`update_expressions_count_batch` (every key present). -/
def toEntry (e : StyleExpr) : ExprEntry :=
  ⟨some e.source_id, some e.type, some e.situation, some e.style⟩

/-- The `for idx in selected_indices` loop: keep integers in
`[1, len(all_expressions)]`, appending the 1-indexed candidate and its id
once per occurrence. -/
def collectValid (cands : List StyleExpr) : List JVal → List StyleExpr × List Int
  | [] => ([], [])
  | v :: vs =>
    let rest := collectValid cands vs
    match pyInt v with
    | some n =>
      if h : 1 ≤ n ∧ n ≤ (cands.length : Int) then
        let e := cands.get ⟨(n - 1).toNat, by omega⟩
        (e :: rest.1, e.id :: rest.2)
      else rest
    | none => rest

/-- Declarative counterpart of the index filter, following the spec: the
1-based integers of the response that lie in `[1, candidates]`, in order. -/
def keptIndices (candidates : Nat) (vs : List JVal) : List Int :=
  vs.filterMap fun v =>
    match pyInt v with
    | some n => if 1 ≤ n ∧ n ≤ (candidates : Int) then some n else none
    | none => none

/-- The enumerated situation line for 1-based index `i`. -/
def situationLine (i : Nat) (e : StyleExpr) : String :=
  toString i ++ ".当 " ++ e.situation ++ " 时，使用 " ++ e.style

def buildSituations (cands : List StyleExpr) : List String :=
  (List.range cands.length).map fun j =>
    situationLine (j + 1) (cands.getD j defaultStyleExpr)

/-- The `expression_evaluation_prompt` template, filled in. -/
def expression_evaluation_prompt (bot_name chat_observe_info all_situations : String)
    (max_num : Int) (target_message target_message_extra_block : String) : String :=
  "\n以下是正在进行的聊天内容：\n" ++ chat_observe_info ++
  "\n\n你的名字是" ++ bot_name ++ target_message ++
  "\n\n以下是可选的表达情境：\n" ++ all_situations ++
  "\n\n请你分析聊天内容的语境、情绪、话题类型，从上述情境中选择最适合当前聊天情境的，最多" ++
  toString max_num ++
  "个情境。\n考虑因素包括：\n1. 聊天的情绪氛围（轻松、严肃、幽默等）\n2. 话题类型（日常、技术、游戏、情感等）\n3. 情境与当前语境的匹配度\n" ++
  target_message_extra_block ++
  "\n\n请以JSON格式输出，只需要输出选中的情境编号：\n例如：\n\x7b\n    \"selected_situations\": [2, 3, 5, 7, 19]\n\x7d\n\n请严格按照JSON格式输出，不要包含其他内容：\n"

/-- Result of one `select_suitable_expressions_llm` call: the two returned
lists, the store after any reinforcement, and whether the LLM was invoked. -/
structure SelectResult where
  exprs : List StyleExpr
  ids : List Int
  db : List ExprRecord
  llmInvoked : Bool
deriving DecidableEq

/-- `ExpressionSelector.select_suitable_expressions_llm`.  `canUse` is the
result of `can_use_expression_for_chat`, `getRandom n` the outcome of
`get_random_expressions(chat_id, n)`, `llm` the transport (exception =
`error`), `parseJson` the `repair_json` + `json.loads` pipeline.  All
exceptions from the LLM call onward are caught by the `try` block and
yield two empty lists. -/
def select_suitable_expressions_llm (canUse : Bool) (getRandom : Int → List StyleExpr)
    (llm : String → Except Unit String) (parseJson : String → Except Unit JVal)
    (bot_name : String) (now : ℚ) (chat_info : String) (max_num : Int)
    (target_message : Option String) (db : List ExprRecord) : SelectResult :=
  if !canUse then ⟨[], [], db, false⟩
  else
    let style_exprs := getRandom 10
    if style_exprs.length < 10 then ⟨[], [], db, false⟩
    else
      let all_expressions := style_exprs
      let all_situations := buildSituations all_expressions
      if all_expressions.isEmpty then ⟨[], [], db, false⟩
      else
        let all_situations_str := strJoin "\n" all_situations
        let target_message_str :=
          match target_message with
          | some t => if t = "" then "" else "，现在你想要回复消息：" ++ t
          | none => ""
        let target_message_extra_block :=
          match target_message with
          | some t => if t = "" then "" else "4.考虑你要回复的目标消息"
          | none => ""
        let prompt := expression_evaluation_prompt bot_name chat_info all_situations_str
          max_num target_message_str target_message_extra_block
        match llm prompt with
        | .error _ => ⟨[], [], db, true⟩
        | .ok content =>
          if content = "" then ⟨[], [], db, true⟩
          else
            match parseJson content with
            | .error _ => ⟨[], [], db, true⟩
            | .ok (.jobj fields) =>
              match jlookup fields "selected_situations" with
              | some (.jlist selected_indices) =>
                let vr := collectValid all_expressions selected_indices
                let db' :=
                  if vr.1.isEmpty then db
                  else update_expressions_count_batch now (vr.1.map toEntry) (6 / 1000) db
                ⟨vr.1, vr.2, db', true⟩
              | some (.jstr _) => ⟨[], [], db, true⟩
              | some (.jobj _) => ⟨[], [], db, true⟩
              | some _ => ⟨[], [], db, true⟩
              | none => ⟨[], [], db, true⟩
            | .ok _ => ⟨[], [], db, true⟩

/-! ## PFC reply generator (`ReplyGenerator.generate`) -/

/-- One observed message as read by `generate` (`processed_plain_text`
already defaulted to the empty string). -/
structure PFCMessage where
  time : ℚ
  user_nickname : Option String
  user_id : String
  processed_plain_text : String

/-- One rendered history line
`HH:MM:SS,<sender>:<text>\n`; the timestamp formatter is explicit. -/
def renderMessage (fmtTime : ℚ → String) (botName : String) (msg : PFCMessage) : String :=
  let sender0 :=
    match msg.user_nickname with
    | some n => if n = "" then "用户" ++ msg.user_id else n
    | none => "用户" ++ msg.user_id
  let sender := if sender0 = botName then "你说" else sender0
  fmtTime msg.time ++ "," ++ sender ++ ":" ++ msg.processed_plain_text ++ "\n"

/-- The knowledge cache: a mapping or a plain list. -/
inductive KnowledgeCache where
  | kdict (entries : List (String × String))
  | klist (items : List String)

/-- Python truthiness of the cache (empty dict or list is falsy). -/
def cacheTruthy : KnowledgeCache → Bool
  | .kdict entries => !entries.isEmpty
  | .klist items => !items.isEmpty

/-- The flattened knowledge block. -/
def renderKnowledge (kc : KnowledgeCache) : String :=
  if cacheTruthy kc then
    "\n相关知识：" ++
      (match kc with
       | .kdict entries => String.join (entries.map fun p => "\n" ++ p.2)
       | .klist items => String.join (items.map fun s => "\n" ++ s))
  else ""

/-- Python truthiness of `previous_reply` (absent or empty is falsy). -/
def pyTruthyOptStr : Option String → Bool
  | none => false
  | some s => !(s == "")

/-- The fixed apology fallback string. -/
def apologyFallback : String :=
  "抱歉，我现在有点混乱，让我重新思考一下..."

/-- The reply prompt, filled in. -/
def reply_prompt (name personality_info goal knowledge_text previous_reply_text
    chat_history_text : String) (has_prev : Bool) : String :=
  "你的名字是" ++ name ++ "，" ++ personality_info ++
  "。现在你在参与一场QQ聊天，请根据以下信息生成回复：\n\n当前对话目标：" ++ goal ++
  "\n" ++ knowledge_text ++ "\n" ++ previous_reply_text ++
  "\n最近的聊天记录：\n" ++ chat_history_text ++
  "\n\n请根据上述信息，以你的性格特征生成一个自然、得体的回复。回复应该：\n1. 符合对话目标，以\"你\"的角度发言\n2. 体现你的性格特征\n3. 自然流畅，像正常聊天一样，简短\n4. 适当利用相关知识，但不要生硬引用\n" ++
  (if has_prev then "5. 改进上一次回复中的问题" else "") ++
  "\n\n请注意把握聊天内容，不要回复的太有条理，可以有个性。请分清\"你\"和对方说的话，不要把\"你\"说的话当做对方说的话，这是你自己说的话。\n请你回复的平淡一些，简短一些，说中文，不要刻意突出自身学科背景，尽量不要说你说过的话 \n请你注意不要输出多余内容(包括前后缀，冒号和引号，括号，表情等)，只输出回复内容。\n不要输出多余内容(包括前后缀，冒号和引号，括号，表情包，at或 @等 )。\n\n请直接输出回复内容，不需要任何额外格式。"

/-- `ReplyGenerator.generate`.  The chat-observer interactions and the LLM
call are explicit outcome parameters; only the LLM call sits inside the
`try` block, so only its exception is converted into the apology string. -/
def generate (triggerUpdateResult : Except Unit Unit)
    (waitForUpdateResult : Except Unit Bool)
    (messagesResult : Except Unit (List PFCMessage))
    (llm : String → Except Unit String) (fmtTime : ℚ → String)
    (name personality_info goal : String) (knowledge_cache : KnowledgeCache)
    (previous_reply : Option String) : Except Unit String :=
  match triggerUpdateResult with
  | .error e => .error e
  | .ok _ =>
    match waitForUpdateResult with
    | .error e => .error e
    | .ok _ =>
      match messagesResult with
      | .error e => .error e
      | .ok messages =>
        let chat_history_text := String.join (messages.map (renderMessage fmtTime name))
        let knowledge_text := renderKnowledge knowledge_cache
        let previous_reply_text :=
          if pyTruthyOptStr previous_reply then
            "\n上一次生成的回复（需要改进）：\n" ++ previous_reply.getD ""
          else ""
        let prompt := reply_prompt name personality_info goal knowledge_text
          previous_reply_text chat_history_text (pyTruthyOptStr previous_reply)
        match llm prompt with
        | .ok content => .ok content
        | .error _ => .ok apologyFallback

/-! ## Helper lemmas -/

theorem strJoin_pair (p i : String) : strJoin "_" [p, i] = p ++ "_" ++ i := rfl

theorem strJoin_triple (p i q : String) :
    strJoin "_" [p, i, q] = p ++ "_" ++ i ++ "_" ++ q := by
  apply String.ext
  simp [strJoin, String.data_append]

/-! ## Claim C5: stream-descriptor derivation -/

/-- C5: a descriptor that does not split on `:` into exactly 3 fields
yields no identifier; `platform:id:type` yields the lowercase hex MD5 of
the UTF-8 key `platform_id` when the type is `group` and of
`platform_id_private` otherwise (fields joined with underscores); the
derivation is deterministic. -/
theorem c5_parse_stream_config_spec (s : String) :
    ((pySplit s ':').length ≠ 3 → parse_stream_config_to_chat_id s = none) ∧
    (∀ platform id_str stream_type,
      pySplit s ':' = [platform, id_str, stream_type] →
      parse_stream_config_to_chat_id s =
        some (md5HexUtf8 (if stream_type = "group" then platform ++ "_" ++ id_str
          else platform ++ "_" ++ id_str ++ "_" ++ "private"))) ∧
    (∀ s', s' = s →
      parse_stream_config_to_chat_id s' = parse_stream_config_to_chat_id s) := by
  refine ⟨?_, ?_, ?_⟩
  · intro h
    unfold parse_stream_config_to_chat_id
    rw [if_pos h]
  · intro platform id_str stream_type h
    unfold parse_stream_config_to_chat_id
    rw [h]
    simp only [List.length_cons, List.length_nil, List.getD]
    rw [if_neg (by omega)]
    by_cases ht : stream_type = "group"
    · simp [ht, strJoin_pair]
    · simp [ht, strJoin_triple]
  · intro s' h
    rw [h]

/-- C5 witness: concrete descriptors evaluate as the theorem states. -/
theorem c5_parse_stream_config_witness :
    parse_stream_config_to_chat_id "qq:12345:group" =
      some (md5HexUtf8 ("qq" ++ "_" ++ "12345")) ∧
    parse_stream_config_to_chat_id "qq:12345:private" =
      some (md5HexUtf8 ("qq" ++ "_" ++ "12345" ++ "_" ++ "private")) ∧
    parse_stream_config_to_chat_id "qq:12345" = none := by
  refine ⟨?_, ?_, ?_⟩
  · have h := (c5_parse_stream_config_spec "qq:12345:group").2.1 "qq" "12345" "group" rfl
    simpa using h
  · have h := (c5_parse_stream_config_spec "qq:12345:private").2.1 "qq" "12345" "private" rfl
    simpa using h
  · exact (c5_parse_stream_config_spec "qq:12345").1 (by decide)

/-! ## Claim C6: weighted sampler edge cases -/

/-- C6: an empty population, empty weights, or `k ≤ 0` yields the empty
list; otherwise a population of size at most `k` is returned whole, in
order, with no sampling performed. -/
theorem c6_weighted_sample_edge_cases {α : Type} (oracle : Nat → Nat)
    (population : List α) (weights : List ℚ) (k : Int) :
    ((population = [] ∨ weights = [] ∨ k ≤ 0) →
      weighted_sample oracle population weights k = some []) ∧
    (population ≠ [] → weights ≠ [] → 0 < k → (population.length : Int) ≤ k →
      weighted_sample oracle population weights k = some population) := by
  constructor
  · intro h
    unfold weighted_sample
    rcases h with h | h | h <;> rw [if_pos (by simp [h])]
  · intro h1 h2 h3 h4
    unfold weighted_sample
    rw [if_neg (by simp [h1, h2]; omega), if_pos h4]

/-- C6 witness: both branches at concrete inputs. -/
theorem c6_weighted_sample_edge_cases_witness :
    weighted_sample (fun _ => 0) ([] : List Nat) [] 5 = some [] ∧
    weighted_sample (fun _ => 0) [7, 8] [1, 1] 3 = some [7, 8] :=
  ⟨(c6_weighted_sample_edge_cases (fun _ => 0) [] [] 5).1 (Or.inl rfl),
   (c6_weighted_sample_edge_cases (fun _ => 0) [7, 8] [1, 1] 3).2
     (by simp) (by simp) (by decide) (by decide)⟩

/-! ## Claim C8: expression-group resolution -/

theorem get_related_first_hit (chat_id : String) (g : List String)
    (post : List (List String))
    (hg : chat_id ∈ g.filterMap parse_stream_config_to_chat_id) :
    ∀ pre : List (List String),
      (∀ g' ∈ pre, chat_id ∉ g'.filterMap parse_stream_config_to_chat_id) →
      get_related_chat_ids (pre ++ g :: post) chat_id =
        g.filterMap parse_stream_config_to_chat_id := by
  intro pre
  induction pre with
  | nil =>
    intro _
    simp only [List.nil_append, get_related_chat_ids]
    rw [if_pos hg]
  | cons p pre ih =>
    intro hpre
    simp only [List.cons_append, get_related_chat_ids]
    rw [if_neg (hpre p (by simp))]
    exact ih fun g' hg' => hpre g' (by simp [hg'])

/-- C8: `get_related_chat_ids` returns the derived ids of the first
configured group containing the input chat_id (unparsable descriptors
omitted), and the singleton of the input when no group contains it. -/
theorem c8_get_related_chat_ids_spec (groups : List (List String)) (chat_id : String) :
    ((∀ g ∈ groups, chat_id ∉ g.filterMap parse_stream_config_to_chat_id) →
      get_related_chat_ids groups chat_id = [chat_id]) ∧
    (∀ pre g post, groups = pre ++ g :: post →
      chat_id ∈ g.filterMap parse_stream_config_to_chat_id →
      (∀ g' ∈ pre, chat_id ∉ g'.filterMap parse_stream_config_to_chat_id) →
      get_related_chat_ids groups chat_id = g.filterMap parse_stream_config_to_chat_id) := by
  constructor
  · intro h
    induction groups with
    | nil => rfl
    | cons g gs ih =>
      simp only [get_related_chat_ids]
      rw [if_neg (h g (by simp))]
      exact ih fun g' hg' => h g' (by simp [hg'])
  · intro pre g post hsplit hg hpre
    rw [hsplit]
    exact get_related_first_hit chat_id g post hg pre hpre

set_option maxRecDepth 100000 in
/-- C8 witness: the configured group of the spec's example, hit and miss. -/
theorem c8_get_related_chat_ids_witness :
    get_related_chat_ids [["qq:1:group", "qq:2:group"]] (md5HexUtf8 "qq_1") =
      [md5HexUtf8 "qq_1", md5HexUtf8 "qq_2"] ∧
    get_related_chat_ids [["qq:1:group", "qq:2:group"]] "unrelated" = ["unrelated"] := by
  constructor
  · have h := (c8_get_related_chat_ids_spec [["qq:1:group", "qq:2:group"]]
      (md5HexUtf8 "qq_1")).2 [] ["qq:1:group", "qq:2:group"] [] rfl (by decide) (by simp)
    rw [h]
    decide
  · exact (c8_get_related_chat_ids_spec [["qq:1:group", "qq:2:group"]] "unrelated").1
      (by decide)

/-! ## Claim C9: reply-generator exception handling -/

/-- C9 counterexample: when the chat-observer wait raises (an exception
before the `try` block), `generate` propagates the exception instead of
returning the apology string, so the claim that every exception during
generation is caught is false at this input. -/
theorem c9_generate_counterexample :
    generate (Except.ok ()) (Except.error ()) (Except.ok []) (fun _ => Except.ok "hi")
      (fun _ => "00:00:00") "bot" "友好" "闲聊" (KnowledgeCache.klist []) none =
      Except.error () ∧
    Except.error () ≠ (Except.ok apologyFallback : Except Unit String) :=
  ⟨rfl, fun h => Except.noConfusion h⟩

/-- C9 amended: once the observer trigger, wait and history retrieval have
all returned normally, `generate` never raises: an exception from the LLM
call (the only code inside the `try`) is caught and replaced by the exact
apology string, and a successful LLM call returns its content. -/
theorem c9_generate_llm_fallback (llm : String → Except Unit String)
    (fmtTime : ℚ → String) (name personality_info goal : String)
    (kc : KnowledgeCache) (previous_reply : Option String) (b : Bool)
    (messages : List PFCMessage) :
    ∀ prompt, prompt = reply_prompt name personality_info goal (renderKnowledge kc)
      (if pyTruthyOptStr previous_reply then
        "\n上一次生成的回复（需要改进）：\n" ++ previous_reply.getD "" else "")
      (String.join (messages.map (renderMessage fmtTime name)))
      (pyTruthyOptStr previous_reply) →
    (llm prompt = Except.error () →
      generate (Except.ok ()) (Except.ok b) (Except.ok messages) llm fmtTime
        name personality_info goal kc previous_reply = Except.ok apologyFallback) ∧
    (∀ c, llm prompt = Except.ok c →
      generate (Except.ok ()) (Except.ok b) (Except.ok messages) llm fmtTime
        name personality_info goal kc previous_reply = Except.ok c) := by
  intro prompt hprompt
  subst hprompt
  constructor
  · intro herr
    simp only [generate]
    rw [herr]
  · intro c hok
    simp only [generate]
    rw [hok]

/-- C9 witness: a raising LLM yields exactly the apology string. -/
theorem c9_generate_llm_fallback_witness :
    generate (Except.ok ()) (Except.ok true) (Except.ok []) (fun _ => Except.error ())
      (fun _ => "00:00:00") "bot" "友好" "闲聊" (KnowledgeCache.klist []) none =
      Except.ok apologyFallback :=
  (c9_generate_llm_fallback (fun _ => Except.error ()) (fun _ => "00:00:00")
    "bot" "友好" "闲聊" (KnowledgeCache.klist []) none true [] _ rfl).1 rfl

/-! ## Claim C7: sampling without replacement -/

theorem popIdx_eq_some {α : Type} (l : List α) (i : Nat) (h : i < l.length) :
    popIdx l i = some (l.get ⟨i, h⟩, l.eraseIdx i) := by
  unfold popIdx
  rw [List.get?_eq_get h]

theorem get_cons_eraseIdx_perm {α : Type} :
    ∀ (l : List α) (i : Nat) (h : i < l.length),
      l.Perm (l.get ⟨i, h⟩ :: l.eraseIdx i)
  | a :: t, 0, _ => by simp
  | a :: t, i + 1, h => by
    have hi : i < t.length := by simpa using h
    have ih := get_cons_eraseIdx_perm t i hi
    show (a :: t).Perm ((a :: t).get ⟨i + 1, h⟩ :: (a :: t).eraseIdx (i + 1))
    have h1 : (a :: t).get ⟨i + 1, h⟩ = t.get ⟨i, hi⟩ := rfl
    have h2 : (a :: t).eraseIdx (i + 1) = a :: t.eraseIdx i := rfl
    rw [h1, h2]
    exact (ih.cons a).trans (List.Perm.swap _ _ _)

/-- Invariant of the draw loop: with a valid draw at every step and enough
pool, the loop returns normally with exactly `fuel` fresh items that form
a sub-permutation of the pool. -/
theorem sampleLoop_spec {α : Type} (oracle : Nat → Nat) :
    ∀ (fuel t : Nat) (pool : List α) (w : List ℚ) (acc : List α),
      fuel ≤ pool.length → w.length = pool.length →
      (∀ s, s < fuel → oracle (t + s) < pool.length - s) →
      ∃ chosen, sampleLoop oracle fuel t pool w acc = some (acc ++ chosen) ∧
        chosen.length = fuel ∧ chosen.Subperm pool := by
  intro fuel
  induction fuel with
  | zero =>
    intro t pool w acc _ _ _
    exact ⟨[], by simp [sampleLoop], rfl, List.nil_subperm⟩
  | succ fuel ih =>
    intro t pool w acc hfuel hw hdraw
    have hpos : 0 < pool.length := by omega
    have hidx : oracle t < pool.length := by
      have := hdraw 0 (by omega)
      simpa using this
    have hidxw : oracle t < w.length := by omega
    have hplen : (pool.eraseIdx (oracle t)).length = pool.length - 1 :=
      List.length_eraseIdx_of_lt hidx
    have hwlen : (w.eraseIdx (oracle t)).length = w.length - 1 :=
      List.length_eraseIdx_of_lt hidxw
    have hdraw' : ∀ s, s < fuel →
        oracle (t + 1 + s) < (pool.eraseIdx (oracle t)).length - s := by
      intro s hs
      have := hdraw (s + 1) (by omega)
      have harg : t + (s + 1) = t + 1 + s := by omega
      rw [harg] at this
      omega
    obtain ⟨chosen, hrun, hlen, hsub⟩ := ih (t + 1) (pool.eraseIdx (oracle t))
      (w.eraseIdx (oracle t)) (acc ++ [pool.get ⟨oracle t, hidx⟩])
      (by omega) (by omega) hdraw'
    refine ⟨pool.get ⟨oracle t, hidx⟩ :: chosen, ?_, by simpa using hlen, ?_⟩
    · have hne : pool.isEmpty = false := by
        cases pool with
        | nil => simp at hpos
        | cons a t => rfl
      rw [sampleLoop, hne]
      simp only [Bool.false_eq_true, if_false,
        show randomChoiceIdx oracle t pool.length = some (oracle t) from if_pos hidx,
        popIdx_eq_some pool (oracle t) hidx, popIdx_eq_some w (oracle t) hidxw,
        hrun]
      simp
    · have hperm := get_cons_eraseIdx_perm pool (oracle t) hidx
      exact ((List.subperm_cons _).2 hsub).trans hperm.symm.subperm

/-- C7: for a non-empty population with parallel weights and `k > 0`,
under every valid outcome of the random draws (the draw at a step the
loop actually takes is an index of the then-remaining pool) the sampler
returns exactly `min k (population size)` elements, drawn without
replacement (the result is a sub-permutation: no position of the
population is used twice), each belonging to the population. -/
theorem c7_weighted_sample_without_replacement {α : Type} [DecidableEq α]
    (oracle : Nat → Nat) (population : List α) (weights : List ℚ) (k : Int)
    (hp : population ≠ []) (hw : weights.length = population.length) (hk : 0 < k)
    (hdraw : ∀ t, t < k.toNat → t < population.length →
      oracle t < population.length - t) :
    ∃ l, weighted_sample oracle population weights k = some l ∧
      l.length = min k.toNat population.length ∧
      (∀ x, l.count x ≤ population.count x) ∧
      (∀ x ∈ l, x ∈ population) := by
  have hplen : 0 < population.length := List.length_pos.2 hp
  have hwne : weights ≠ [] := by
    intro h
    rw [h] at hw
    simp at hw
    omega
  by_cases hle : (population.length : Int) ≤ k
  · refine ⟨population, ?_, by omega, fun x => le_rfl, fun x hx => hx⟩
    unfold weighted_sample
    rw [if_neg (by simp [hp, hwne]; omega), if_pos hle]
  · have hklt : k.toNat ≤ population.length := by omega
    have hdraw0 : ∀ s, s < k.toNat → oracle (0 + s) < population.length - s := by
      intro s hs
      have := hdraw s hs (by omega)
      simpa using this
    obtain ⟨chosen, hrun, hlen, hsub⟩ := sampleLoop_spec oracle k.toNat 0
      population weights [] hklt hw hdraw0
    refine ⟨chosen, ?_, by omega, fun x => hsub.count_le x, fun x hx => hsub.subset hx⟩
    unfold weighted_sample
    rw [if_neg (by simp [hp, hwne]; omega), if_neg hle]
    simpa using hrun

/-- C7 witness: three elements with two draws (k < size), and with a
request larger than the pool (k = 5 > 3), both with draws of index 0. -/
theorem c7_weighted_sample_without_replacement_witness :
    (∃ l, weighted_sample (fun _ => 0) [10, 20, 30] [1, 1, 1] 2 = some l ∧
      l.length = min (Int.toNat 2) 3 ∧
      (∀ x, l.count x ≤ List.count x [10, 20, 30]) ∧
      (∀ x ∈ l, x ∈ [10, 20, 30])) ∧
    (∃ l, weighted_sample (fun _ => 0) [10, 20, 30] [1, 1, 1] 5 = some l ∧
      l.length = min (Int.toNat 5) 3 ∧
      (∀ x, l.count x ≤ List.count x [10, 20, 30]) ∧
      (∀ x ∈ l, x ∈ [10, 20, 30])) :=
  ⟨c7_weighted_sample_without_replacement (fun _ => 0) [10, 20, 30] [1, 1, 1] 2
    (by simp) (by simp) (by decide) (fun t ht hlt => by simp at hlt ⊢; omega),
   c7_weighted_sample_without_replacement (fun _ => 0) [10, 20, 30] [1, 1, 1] 5
    (by simp) (by simp) (by decide) (fun t ht hlt => by simp at hlt ⊢; omega)⟩

/-! ## Claims C3 and C4: batch reinforcement -/

/-- Position `i` holds the first record of `db` matching key `k`. -/
def isFirstMatchAt (k : ExprKey) (db : List ExprRecord) (i : Nat) : Prop :=
  i < db.length ∧ recordKey (db.getD i defaultRecord) = k ∧
    ∀ j, j < i → recordKey (db.getD j defaultRecord) ≠ k

theorem recordMatches_eq_true {k : ExprKey} {r : ExprRecord} :
    recordMatches k r = true ↔ recordKey r = k := by
  simp [recordMatches]

theorem recordKey_applyIncrement (now inc : ℚ) (r : ExprRecord) :
    recordKey (applyIncrement now inc r) = recordKey r := rfl

theorem updateFirstMatch_length (now inc : ℚ) (k : ExprKey) :
    ∀ db : List ExprRecord, (updateFirstMatch now inc k db).length = db.length := by
  intro db
  induction db with
  | nil => rfl
  | cons r rs ih =>
    rw [updateFirstMatch]
    by_cases h : recordMatches k r
    · rw [if_pos h]
      simp
    · rw [if_neg h]
      simp [ih]

theorem updateFirstMatch_recordKey (now inc : ℚ) (k : ExprKey) :
    ∀ (db : List ExprRecord) (i : Nat),
      recordKey ((updateFirstMatch now inc k db).getD i defaultRecord) =
        recordKey (db.getD i defaultRecord) := by
  intro db
  induction db with
  | nil => intro i; rfl
  | cons r rs ih =>
    intro i
    rw [updateFirstMatch]
    by_cases h : recordMatches k r
    · rw [if_pos h]
      cases i with
      | zero => rfl
      | succ j => rfl
    · rw [if_neg h]
      cases i with
      | zero => rfl
      | succ j => simpa using ih j

theorem updateFirstMatch_getD_ne (now inc : ℚ) (k : ExprKey) :
    ∀ (db : List ExprRecord) (i : Nat),
      recordKey (db.getD i defaultRecord) ≠ k →
      (updateFirstMatch now inc k db).getD i defaultRecord = db.getD i defaultRecord := by
  intro db
  induction db with
  | nil => intro i _; rfl
  | cons r rs ih =>
    intro i hne
    rw [updateFirstMatch]
    by_cases h : recordMatches k r
    · rw [if_pos h]
      cases i with
      | zero => exact absurd (recordMatches_eq_true.1 h) hne
      | succ j => rfl
    · rw [if_neg h]
      cases i with
      | zero => rfl
      | succ j => simpa using ih j (by simpa using hne)

theorem updateFirstMatch_getD_first (now inc : ℚ) (k : ExprKey) :
    ∀ (db : List ExprRecord) (i : Nat), isFirstMatchAt k db i →
      (updateFirstMatch now inc k db).getD i defaultRecord =
        applyIncrement now inc (db.getD i defaultRecord) := by
  intro db
  induction db with
  | nil =>
    intro i h
    simp [isFirstMatchAt] at h
  | cons r rs ih =>
    intro i h
    obtain ⟨hi, hkey, hfirst⟩ := h
    rw [updateFirstMatch]
    by_cases hm : recordMatches k r
    · rw [if_pos hm]
      cases i with
      | zero => rfl
      | succ j =>
        exact absurd (recordMatches_eq_true.1 hm) (hfirst 0 (by omega))
    · rw [if_neg hm]
      cases i with
      | zero =>
        exact absurd hkey (by simpa [recordMatches_eq_true] using hm)
      | succ j =>
        refine (ih j ⟨by simpa using hi, by simpa using hkey, ?_⟩)
        intro j' hj'
        simpa using hfirst (j' + 1) (by omega)

theorem foldl_update_length (now inc : ℚ) :
    ∀ (ks : List ExprKey) (db : List ExprRecord),
      (ks.foldl (fun d k => updateFirstMatch now inc k d) db).length = db.length := by
  intro ks
  induction ks with
  | nil => intro db; rfl
  | cons k ks ih =>
    intro db
    rw [List.foldl_cons, ih, updateFirstMatch_length]

theorem foldl_update_getD_ne (now inc : ℚ) :
    ∀ (ks : List ExprKey) (db : List ExprRecord) (i : Nat),
      (∀ k ∈ ks, recordKey (db.getD i defaultRecord) ≠ k) →
      (ks.foldl (fun d k => updateFirstMatch now inc k d) db).getD i defaultRecord =
        db.getD i defaultRecord := by
  intro ks
  induction ks with
  | nil => intro db i _; rfl
  | cons k ks ih =>
    intro db i h
    rw [List.foldl_cons]
    rw [ih _ i ?_, updateFirstMatch_getD_ne now inc k db i (h k (by simp))]
    intro k' hk'
    rw [updateFirstMatch_recordKey]
    exact h k' (by simp [hk'])

theorem foldl_update_getD_first (now inc : ℚ) :
    ∀ (ks : List ExprKey), ks.Nodup → ∀ (k : ExprKey), k ∈ ks →
      ∀ (db : List ExprRecord) (i : Nat), isFirstMatchAt k db i →
      (ks.foldl (fun d k => updateFirstMatch now inc k d) db).getD i defaultRecord =
        applyIncrement now inc (db.getD i defaultRecord) := by
  intro ks
  induction ks with
  | nil => intro _ k hk; simp at hk
  | cons k' ks ih =>
    intro hnd k hk db i hm
    rw [List.foldl_cons]
    rcases List.mem_cons.1 hk with heq | hmem
    · subst heq
      rw [foldl_update_getD_ne now inc ks _ i ?_,
        updateFirstMatch_getD_first now inc k db i hm]
      intro k'' hk''
      rw [updateFirstMatch_recordKey, hm.2.1]
      intro hcontra
      subst hcontra
      exact (List.nodup_cons.1 hnd).1 hk''
    · have hne : recordKey (db.getD i defaultRecord) ≠ k' := by
        rw [hm.2.1]
        intro hcontra
        subst hcontra
        exact (List.nodup_cons.1 hnd).1 hmem
      have heq := updateFirstMatch_getD_ne now inc k' db i hne
      rw [ih (List.nodup_cons.1 hnd).2 k hmem (updateFirstMatch now inc k' db) i
        ⟨?_, ?_, ?_⟩, heq]
      · rw [updateFirstMatch_length]
        exact hm.1
      · rw [updateFirstMatch_recordKey]
        exact hm.2.1
      · intro j hj
        rw [updateFirstMatch_recordKey]
        exact hm.2.2 j hj

theorem insertKey_nodup {ks : List ExprKey} (h : ks.Nodup) (k : ExprKey) :
    (insertKey ks k).Nodup := by
  unfold insertKey
  by_cases hk : k ∈ ks
  · rw [if_pos hk]
    exact h
  · rw [if_neg hk]
    simp [List.nodup_append, h, hk]

theorem dedupKeys_nodup (entries : List ExprEntry) : (dedupKeys entries).Nodup := by
  suffices h : ∀ (es : List ExprEntry) (acc : List ExprKey), acc.Nodup →
      (es.foldl (fun ks e =>
        match entryKey e with
        | none => ks
        | some k => insertKey ks k) acc).Nodup by
    exact h entries [] List.nodup_nil
  intro es
  induction es with
  | nil => intro acc h; exact h
  | cons e es ih =>
    intro acc h
    rw [List.foldl_cons]
    cases hke : entryKey e with
    | none => exact ih acc h
    | some k => exact ih _ (insertKey_nodup h k)

theorem updateFirstMatch_no_match (now inc : ℚ) (k : ExprKey) :
    ∀ db : List ExprRecord, (∀ r ∈ db, recordKey r ≠ k) →
      updateFirstMatch now inc k db = db := by
  intro db
  induction db with
  | nil => intro _; rfl
  | cons r rs ih =>
    intro h
    rw [updateFirstMatch, if_neg ?_, ih fun r' hr' => h r' (by simp [hr'])]
    simp only [recordMatches_eq_true]
    exact h r (by simp)

/-- C3: for a non-negative increment, the first persisted record matching a
key of the (deduplicated) batch, whose count was at most 5.0, ends with
count exactly `min (old + increment) 5.0`, has `last_active_time` set to
the current time, and never exceeds 5.0. -/
theorem c3_update_batch_clamps (now inc : ℚ) (entries : List ExprEntry)
    (db : List ExprRecord) (i : Nat) (k : ExprKey)
    (hinc : 0 ≤ inc) (hk : k ∈ dedupKeys entries) (hm : isFirstMatchAt k db i)
    (hc : (db.getD i defaultRecord).count ≤ 5) :
    ((update_expressions_count_batch now entries inc db).getD i defaultRecord).count =
      min ((db.getD i defaultRecord).count + inc) 5 ∧
    ((update_expressions_count_batch now entries inc db).getD i
      defaultRecord).last_active_time = now ∧
    ((update_expressions_count_batch now entries inc db).getD i defaultRecord).count ≤ 5 := by
  have h := foldl_update_getD_first now inc (dedupKeys entries)
    (dedupKeys_nodup entries) k hk db i hm
  rw [update_expressions_count_batch, h]
  exact ⟨rfl, rfl, min_le_right _ _⟩

/-- C3 witness: one matching record at count 4.95, increment 0.1, clamped
to exactly 5. -/
theorem c3_update_batch_clamps_witness :
    ((update_expressions_count_batch 7 [⟨some "c", some "style", some "s", some "t"⟩]
      (1 / 10) [⟨1, "c", "style", "s", "t", 99 / 20, 0, none⟩]).getD 0
      defaultRecord).count =
      min ((([⟨1, "c", "style", "s", "t", 99 / 20, 0, none⟩] :
        List ExprRecord).getD 0 defaultRecord).count + 1 / 10) 5 ∧
    ((update_expressions_count_batch 7 [⟨some "c", some "style", some "s", some "t"⟩]
      (1 / 10) [⟨1, "c", "style", "s", "t", 99 / 20, 0, none⟩]).getD 0
      defaultRecord).last_active_time = 7 ∧
    ((update_expressions_count_batch 7 [⟨some "c", some "style", some "s", some "t"⟩]
      (1 / 10) [⟨1, "c", "style", "s", "t", 99 / 20, 0, none⟩]).getD 0
      defaultRecord).count ≤ 5 :=
  c3_update_batch_clamps 7 (1 / 10)
    [⟨some "c", some "style", some "s", some "t"⟩]
    [⟨1, "c", "style", "s", "t", 99 / 20, 0, none⟩] 0 ("c", "style", "s", "t")
    (by norm_num) (by decide) ⟨by decide, by decide, fun j hj => absurd hj (by omega)⟩
    (by norm_num)

/-- C4: batch entries sharing a key cause at most one write (a later
duplicate is a no-op); an entry with a missing required field is skipped
without affecting the rest of the batch; a key matching no record writes
nothing and creates nothing (the store size never changes). -/
theorem c4_update_batch_dedup_and_skip (now inc : ℚ) (db : List ExprRecord) :
    (∀ xs e k, entryKey e = some k → k ∈ dedupKeys xs →
      update_expressions_count_batch now (xs ++ [e]) inc db =
        update_expressions_count_batch now xs inc db) ∧
    (∀ xs ys e, entryKey e = none →
      update_expressions_count_batch now (xs ++ e :: ys) inc db =
        update_expressions_count_batch now (xs ++ ys) inc db) ∧
    (∀ e : ExprEntry, (e.source_id = none ∨ e.situation = none ∨ e.style = none) →
      entryKey e = none) ∧
    (∀ e k, entryKey e = some k → (∀ r ∈ db, recordKey r ≠ k) →
      update_expressions_count_batch now [e] inc db = db) ∧
    (∀ es, (update_expressions_count_batch now es inc db).length = db.length) := by
  have happ : ∀ xs ys : List ExprEntry,
      dedupKeys (xs ++ ys) = ys.foldl (fun ks e =>
        match entryKey e with
        | none => ks
        | some k => insertKey ks k) (dedupKeys xs) := by
    intro xs ys
    unfold dedupKeys
    rw [List.foldl_append]
  refine ⟨?_, ?_, ?_, ?_, ?_⟩
  · intro xs e k hke hkmem
    unfold update_expressions_count_batch
    rw [happ xs [e]]
    simp only [List.foldl_cons, List.foldl_nil, hke]
    rw [show insertKey (dedupKeys xs) k = dedupKeys xs from if_pos hkmem]
  · intro xs ys e hke
    unfold update_expressions_count_batch
    rw [happ xs (e :: ys), happ xs ys]
    simp only [List.foldl_cons, hke]
  · intro e h
    unfold entryKey
    rcases h with h | h | h <;> rw [if_pos (by simp [h, falsyStr])]
  · intro e k hke h
    unfold update_expressions_count_batch
    rw [show dedupKeys [e] = [k] from by simp [dedupKeys, hke, insertKey]]
    rw [List.foldl_cons, List.foldl_nil]
    exact updateFirstMatch_no_match now inc k db h
  · intro es
    exact foldl_update_length now inc (dedupKeys es) db

/-- C4 witness: a duplicate-key batch, a skipped entry, and a no-match key
at concrete inputs. -/
theorem c4_update_batch_dedup_and_skip_witness :
    (update_expressions_count_batch 3
        [⟨some "c", some "style", some "s", some "t"⟩,
         ⟨some "c", some "style", some "s", some "t"⟩] (1 / 10)
        [⟨1, "c", "style", "s", "t", 1, 0, none⟩] =
      update_expressions_count_batch 3
        [⟨some "c", some "style", some "s", some "t"⟩] (1 / 10)
        [⟨1, "c", "style", "s", "t", 1, 0, none⟩]) ∧
    (update_expressions_count_batch 3
        [⟨some "c", some "style", none, some "t"⟩,
         ⟨some "c", some "style", some "s", some "t"⟩] (1 / 10)
        [⟨1, "c", "style", "s", "t", 1, 0, none⟩] =
      update_expressions_count_batch 3
        [⟨some "c", some "style", some "s", some "t"⟩] (1 / 10)
        [⟨1, "c", "style", "s", "t", 1, 0, none⟩]) ∧
    (update_expressions_count_batch 3 [⟨some "x", some "style", some "s", some "t"⟩]
        (1 / 10) [⟨1, "c", "style", "s", "t", 1, 0, none⟩] =
      [⟨1, "c", "style", "s", "t", 1, 0, none⟩]) := by
  refine ⟨?_, ?_, ?_⟩
  · exact (c4_update_batch_dedup_and_skip 3 (1 / 10)
      [⟨1, "c", "style", "s", "t", 1, 0, none⟩]).1
      [⟨some "c", some "style", some "s", some "t"⟩]
      ⟨some "c", some "style", some "s", some "t"⟩ ("c", "style", "s", "t")
      rfl (by decide)
  · exact (c4_update_batch_dedup_and_skip 3 (1 / 10)
      [⟨1, "c", "style", "s", "t", 1, 0, none⟩]).2.1
      [] [⟨some "c", some "style", some "s", some "t"⟩]
      ⟨some "c", some "style", none, some "t"⟩ rfl
  · exact (c4_update_batch_dedup_and_skip 3 (1 / 10)
      [⟨1, "c", "style", "s", "t", 1, 0, none⟩]).2.2.2.1
      ⟨some "x", some "style", some "s", some "t"⟩ ("x", "style", "s", "t")
      rfl (by decide)

/-! ## Claims C1, C2, C10: LLM-driven selection -/

theorem getD_eq_get {α : Type} (l : List α) (d : α) (i : Nat) (h : i < l.length) :
    l.getD i d = l.get ⟨i, h⟩ := by
  rw [List.getD_eq_getElem?_getD, List.getElem?_eq_getElem h]
  simp [List.get_eq_getElem]

theorem keptIndices_cons (c : Nat) (v : JVal) (vs : List JVal) :
    keptIndices c (v :: vs) =
      (match pyInt v with
       | some n =>
        if 1 ≤ n ∧ n ≤ (c : Int) then n :: keptIndices c vs else keptIndices c vs
       | none => keptIndices c vs) := by
  unfold keptIndices
  rw [List.filterMap_cons]
  cases pyInt v with
  | none => rfl
  | some n =>
    dsimp only
    by_cases hn : 1 ≤ n ∧ n ≤ (c : Int)
    · rw [if_pos hn, if_pos hn]
    · rw [if_neg hn, if_neg hn]

/-- The selection loop equals the declarative filter of the spec. -/
theorem collectValid_eq_spec (cands : List StyleExpr) :
    ∀ vs : List JVal, collectValid cands vs =
      ((keptIndices cands.length vs).map fun n =>
        cands.getD (n - 1).toNat defaultStyleExpr,
       (keptIndices cands.length vs).map fun n =>
        (cands.getD (n - 1).toNat defaultStyleExpr).id) := by
  intro vs
  induction vs with
  | nil => rfl
  | cons v vs ih =>
    rw [collectValid, keptIndices_cons]
    cases hv : pyInt v with
    | none =>
      dsimp only
      exact ih
    | some n =>
      dsimp only
      by_cases hn : 1 ≤ n ∧ n ≤ (cands.length : Int)
      · have hlt : (n - 1).toNat < cands.length := by omega
        rw [dif_pos hn, if_pos hn]
        simp only [ih, List.map_cons,
          getD_eq_get cands defaultStyleExpr ((n - 1).toNat) hlt]
      · rw [dif_neg hn, if_neg hn]
        exact ih

theorem collectValid_length (cands : List StyleExpr) (vs : List JVal) :
    (collectValid cands vs).2.length = (collectValid cands vs).1.length := by
  rw [collectValid_eq_spec]
  simp

theorem collectValid_parallel (cands : List StyleExpr) (vs : List JVal) :
    ∀ j, (collectValid cands vs).2.getD j 0 =
      ((collectValid cands vs).1.getD j defaultStyleExpr).id := by
  rw [collectValid_eq_spec]
  intro j
  generalize keptIndices cands.length vs = kept
  induction kept generalizing j with
  | nil => rfl
  | cons n ns ih =>
    cases j with
    | zero => rfl
    | succ j' =>
      simp only [List.map_cons, List.getD_cons_succ]
      exact ih j'

/-- With permission granted, ten candidates retrieved, a non-empty LLM
response parsing to a dict whose `selected_situations` is a list, the call
reaches the index-collection loop and reinforces the selected entries. -/
theorem select_reaches_collect (getRandom : Int → List StyleExpr)
    (llm : String → Except Unit String) (parseJson : String → Except Unit JVal)
    (bot_name : String) (now : ℚ) (chat_info : String) (max_num : Int)
    (target_message : Option String) (db : List ExprRecord)
    (cands : List StyleExpr) (content : String)
    (fields : List (String × JVal)) (selected_indices : List JVal)
    (hg : getRandom 10 = cands) (hlen : ¬ cands.length < 10)
    (hllm : ∀ p, llm p = Except.ok content) (hc : content ≠ "")
    (hp : parseJson content = Except.ok (JVal.jobj fields))
    (hf : jlookup fields "selected_situations" = some (JVal.jlist selected_indices)) :
    select_suitable_expressions_llm true getRandom llm parseJson bot_name now
      chat_info max_num target_message db =
      ⟨(collectValid cands selected_indices).1, (collectValid cands selected_indices).2,
       if (collectValid cands selected_indices).1.isEmpty then db
       else update_expressions_count_batch now
         ((collectValid cands selected_indices).1.map toEntry) (6 / 1000) db,
       true⟩ := by
  have hne : cands.isEmpty = false := by
    rw [List.isEmpty_eq_false]
    intro hnil
    rw [hnil] at hlen
    simp at hlen
  unfold select_suitable_expressions_llm
  rw [hg]
  simp only [Bool.not_true, Bool.false_eq_true, if_false, hne, hllm, hp, hf,
    if_neg hlen, if_neg hc]

/-- C1: if the permission check denies expression use, or fewer than 10
style expressions are retrieved, the call returns two empty lists without
invoking the LLM; the threshold 10 is fixed, independent of `max_num`. -/
theorem c1_select_warmup_gate (canUse : Bool) (getRandom : Int → List StyleExpr)
    (llm : String → Except Unit String) (parseJson : String → Except Unit JVal)
    (bot_name : String) (now : ℚ) (chat_info : String) (max_num : Int)
    (target_message : Option String) (db : List ExprRecord)
    (h : canUse = false ∨ (getRandom 10).length < 10) :
    select_suitable_expressions_llm canUse getRandom llm parseJson bot_name now
      chat_info max_num target_message db = ⟨[], [], db, false⟩ := by
  cases canUse with
  | false => rfl
  | true =>
    rcases h with h | h
    · exact absurd h (by simp)
    · unfold select_suitable_expressions_llm
      simp only [Bool.not_true, Bool.false_eq_true, if_false, if_pos h]

/-- C1 witness: denied permission, and a warm-up pool of size 3, both with
`max_num = 2`. -/
theorem c1_select_warmup_gate_witness :
    select_suitable_expressions_llm false (fun _ => [defaultStyleExpr])
      (fun _ => Except.ok "x") (fun _ => Except.error ()) "bot" 0 "chat" 2 none [] =
      ⟨[], [], [], false⟩ ∧
    select_suitable_expressions_llm true
      (fun _ => [defaultStyleExpr, defaultStyleExpr, defaultStyleExpr])
      (fun _ => Except.ok "x") (fun _ => Except.error ()) "bot" 0 "chat" 2 none [] =
      ⟨[], [], [], false⟩ :=
  ⟨c1_select_warmup_gate false (fun _ => [defaultStyleExpr]) (fun _ => Except.ok "x")
      (fun _ => Except.error ()) "bot" 0 "chat" 2 none [] (Or.inl rfl),
   c1_select_warmup_gate true (fun _ => [defaultStyleExpr, defaultStyleExpr, defaultStyleExpr])
      (fun _ => Except.ok "x") (fun _ => Except.error ()) "bot" 0 "chat" 2 none []
      (Or.inr (by decide))⟩

/-- C2: the parsed `selected_situations` entries that are integers in
`[1, candidate_count]` are kept in order, each mapped to the candidate at
position index minus one; all other entries are silently dropped, and the
returned id list is parallel to the returned expression list. -/
theorem c2_select_index_filtering (getRandom : Int → List StyleExpr)
    (llm : String → Except Unit String) (parseJson : String → Except Unit JVal)
    (bot_name : String) (now : ℚ) (chat_info : String) (max_num : Int)
    (target_message : Option String) (db : List ExprRecord)
    (cands : List StyleExpr) (content : String)
    (fields : List (String × JVal)) (selected_indices : List JVal)
    (hg : getRandom 10 = cands) (hlen : ¬ cands.length < 10)
    (hllm : ∀ p, llm p = Except.ok content) (hc : content ≠ "")
    (hp : parseJson content = Except.ok (JVal.jobj fields))
    (hf : jlookup fields "selected_situations" = some (JVal.jlist selected_indices)) :
    (select_suitable_expressions_llm true getRandom llm parseJson bot_name now
      chat_info max_num target_message db).exprs =
      (keptIndices cands.length selected_indices).map
        (fun n => cands.getD (n - 1).toNat defaultStyleExpr) ∧
    (select_suitable_expressions_llm true getRandom llm parseJson bot_name now
      chat_info max_num target_message db).ids =
      (keptIndices cands.length selected_indices).map
        (fun n => (cands.getD (n - 1).toNat defaultStyleExpr).id) ∧
    (select_suitable_expressions_llm true getRandom llm parseJson bot_name now
      chat_info max_num target_message db).ids.length =
      (select_suitable_expressions_llm true getRandom llm parseJson bot_name now
        chat_info max_num target_message db).exprs.length ∧
    ∀ j, (select_suitable_expressions_llm true getRandom llm parseJson bot_name now
        chat_info max_num target_message db).ids.getD j 0 =
      ((select_suitable_expressions_llm true getRandom llm parseJson bot_name now
        chat_info max_num target_message db).exprs.getD j defaultStyleExpr).id := by
  rw [select_reaches_collect getRandom llm parseJson bot_name now chat_info max_num
    target_message db cands content fields selected_indices hg hlen hllm hc hp hf]
  refine ⟨?_, ?_, ?_, ?_⟩
  · rw [collectValid_eq_spec]
  · rw [collectValid_eq_spec]
  · exact collectValid_length cands selected_indices
  · exact collectValid_parallel cands selected_indices

/-- A concrete candidate used by witnesses. -/
def mkStyle (n : Int) : StyleExpr :=
  ⟨n, "s" ++ toString n, "v" ++ toString n, 1, 0, "c", "style", 0⟩

/-- Ten enumerated concrete candidates, ids 1..10. -/
def tenStyles : List StyleExpr :=
  (List.range 10).map fun j => mkStyle (Int.ofNat j + 1)

/-- C2 witness: the spec's example: ten candidates and the response
entries 1, 10, 11, 0, "x" resolve to exactly the first and tenth
candidate, ids in selection order. -/
theorem c2_select_index_filtering_witness :
    (select_suitable_expressions_llm true (fun _ => tenStyles)
      (fun _ => Except.ok "j")
      (fun _ => Except.ok (JVal.jobj [("selected_situations",
        JVal.jlist [JVal.jint 1, JVal.jint 10, JVal.jint 11, JVal.jint 0,
          JVal.jstr "x"])]))
      "bot" 0 "chat" 3 none []).exprs = [mkStyle 1, mkStyle 10] ∧
    (select_suitable_expressions_llm true (fun _ => tenStyles)
      (fun _ => Except.ok "j")
      (fun _ => Except.ok (JVal.jobj [("selected_situations",
        JVal.jlist [JVal.jint 1, JVal.jint 10, JVal.jint 11, JVal.jint 0,
          JVal.jstr "x"])]))
      "bot" 0 "chat" 3 none []).ids = [1, 10] := by
  have h := c2_select_index_filtering (fun _ => tenStyles)
    (fun _ => Except.ok "j")
    (fun _ => Except.ok (JVal.jobj [("selected_situations",
      JVal.jlist [JVal.jint 1, JVal.jint 10, JVal.jint 11, JVal.jint 0,
        JVal.jstr "x"])]))
    "bot" 0 "chat" 3 none [] tenStyles "j"
    [("selected_situations",
      JVal.jlist [JVal.jint 1, JVal.jint 10, JVal.jint 11, JVal.jint 0,
        JVal.jstr "x"])]
    [JVal.jint 1, JVal.jint 10, JVal.jint 11, JVal.jint 0, JVal.jstr "x"]
    rfl (by decide) (fun p => rfl) (by decide) rfl rfl
  refine ⟨?_, ?_⟩
  · rw [h.1]
    decide
  · rw [h.2.1]
    decide

theorem keptIndices_append (c : Nat) (xs ys : List JVal) :
    keptIndices c (xs ++ ys) = keptIndices c xs ++ keptIndices c ys := by
  unfold keptIndices
  rw [List.filterMap_append]

theorem keptIndices_cons_valid (c : Nat) (idx : Int) (vs : List JVal)
    (h : 1 ≤ idx ∧ idx ≤ (c : Int)) :
    keptIndices c (JVal.jint idx :: vs) = idx :: keptIndices c vs := by
  rw [keptIndices_cons]
  dsimp only [pyInt]
  rw [if_pos h]

theorem insertKey_mem_self (ks : List ExprKey) (k : ExprKey) : k ∈ insertKey ks k := by
  unfold insertKey
  by_cases h : k ∈ ks
  · rw [if_pos h]
    exact h
  · rw [if_neg h]
    simp

theorem insertKey_mem_mono {ks : List ExprKey} {k' : ExprKey} (h : k' ∈ ks)
    (k : ExprKey) : k' ∈ insertKey ks k := by
  unfold insertKey
  by_cases hk : k ∈ ks
  · rw [if_pos hk]
    exact h
  · rw [if_neg hk]
    simp [h]

theorem foldl_dedup_mem_mono (k' : ExprKey) :
    ∀ (es : List ExprEntry) (acc : List ExprKey), k' ∈ acc →
      k' ∈ es.foldl (fun ks e =>
        match entryKey e with
        | none => ks
        | some k => insertKey ks k) acc := by
  intro es
  induction es with
  | nil => intro acc h; exact h
  | cons e es ih =>
    intro acc h
    rw [List.foldl_cons]
    cases hke : entryKey e with
    | none =>
      simp only [hke]
      exact ih acc h
    | some k =>
      simp only [hke]
      exact ih _ (insertKey_mem_mono h k)

theorem foldl_dedup_mem (e : ExprEntry) (k : ExprKey) (hke : entryKey e = some k) :
    ∀ (es : List ExprEntry) (acc : List ExprKey), e ∈ es →
      k ∈ es.foldl (fun ks e' =>
        match entryKey e' with
        | none => ks
        | some k' => insertKey ks k') acc := by
  intro es
  induction es with
  | nil => intro acc h; simp at h
  | cons e' es ih =>
    intro acc h
    rw [List.foldl_cons]
    rcases List.mem_cons.1 h with heq | hmem
    · subst heq
      simp only [hke]
      exact foldl_dedup_mem_mono k es _ (insertKey_mem_self acc k)
    · exact ih _ hmem

theorem dedupKeys_mem (entries : List ExprEntry) (e : ExprEntry) (k : ExprKey)
    (he : e ∈ entries) (hke : entryKey e = some k) : k ∈ dedupKeys entries :=
  foldl_dedup_mem e k hke entries [] he

/-- C10: when `selected_situations` contains the same valid index more
than once -- anywhere in the list, with arbitrary other entries around
the two occurrences -- the selection appends the corresponding candidate
and its id once per occurrence, so both returned lists contain duplicate
entries; the batch reinforcement deduplicates the batch by key, so the
first persisted record matching that candidate's key receives exactly one
increment in this call. -/
theorem c10_select_duplicate_reinforced_once (getRandom : Int → List StyleExpr)
    (llm : String → Except Unit String) (parseJson : String → Except Unit JVal)
    (bot_name : String) (now : ℚ) (chat_info : String) (max_num : Int)
    (target_message : Option String) (db : List ExprRecord)
    (cands : List StyleExpr) (content : String)
    (fields : List (String × JVal)) (l1 l2 l3 : List JVal) (idx : Int)
    (hg : getRandom 10 = cands) (hlen : ¬ cands.length < 10)
    (hllm : ∀ p, llm p = Except.ok content) (hc : content ≠ "")
    (hp : parseJson content = Except.ok (JVal.jobj fields))
    (hf : jlookup fields "selected_situations" =
      some (JVal.jlist (l1 ++ JVal.jint idx :: (l2 ++ JVal.jint idx :: l3))))
    (hidx : 1 ≤ idx ∧ idx ≤ (cands.length : Int)) :
    ∀ e, e = cands.getD (idx - 1).toNat defaultStyleExpr →
    (select_suitable_expressions_llm true getRandom llm parseJson bot_name now
      chat_info max_num target_message db).exprs =
      (keptIndices cands.length l1).map
        (fun n => cands.getD (n - 1).toNat defaultStyleExpr) ++
      e :: ((keptIndices cands.length l2).map
        (fun n => cands.getD (n - 1).toNat defaultStyleExpr) ++
      e :: (keptIndices cands.length l3).map
        (fun n => cands.getD (n - 1).toNat defaultStyleExpr)) ∧
    (select_suitable_expressions_llm true getRandom llm parseJson bot_name now
      chat_info max_num target_message db).ids =
      (keptIndices cands.length l1).map
        (fun n => (cands.getD (n - 1).toNat defaultStyleExpr).id) ++
      e.id :: ((keptIndices cands.length l2).map
        (fun n => (cands.getD (n - 1).toNat defaultStyleExpr).id) ++
      e.id :: (keptIndices cands.length l3).map
        (fun n => (cands.getD (n - 1).toNat defaultStyleExpr).id)) ∧
    2 ≤ (select_suitable_expressions_llm true getRandom llm parseJson bot_name now
      chat_info max_num target_message db).exprs.count e ∧
    2 ≤ (select_suitable_expressions_llm true getRandom llm parseJson bot_name now
      chat_info max_num target_message db).ids.count e.id ∧
    (∀ i, e.source_id ≠ "" → e.situation ≠ "" → e.style ≠ "" →
      isFirstMatchAt (e.source_id, e.type, e.situation, e.style) db i →
      (select_suitable_expressions_llm true getRandom llm parseJson bot_name now
        chat_info max_num target_message db).db.getD i defaultRecord =
        applyIncrement now (6 / 1000) (db.getD i defaultRecord)) := by
  intro e he
  have hsel := select_reaches_collect getRandom llm parseJson bot_name now chat_info
    max_num target_message db cands content fields
    (l1 ++ JVal.jint idx :: (l2 ++ JVal.jint idx :: l3)) hg hlen hllm hc hp hf
  have hkept : keptIndices cands.length
      (l1 ++ JVal.jint idx :: (l2 ++ JVal.jint idx :: l3)) =
      keptIndices cands.length l1 ++ idx ::
        (keptIndices cands.length l2 ++ idx :: keptIndices cands.length l3) := by
    rw [keptIndices_append, keptIndices_cons_valid _ _ _ hidx, keptIndices_append,
      keptIndices_cons_valid _ _ _ hidx]
  have hcv := collectValid_eq_spec cands
    (l1 ++ JVal.jint idx :: (l2 ++ JVal.jint idx :: l3))
  rw [hkept] at hcv
  have h1 : (collectValid cands
      (l1 ++ JVal.jint idx :: (l2 ++ JVal.jint idx :: l3))).1 =
      (keptIndices cands.length l1).map
        (fun n => cands.getD (n - 1).toNat defaultStyleExpr) ++
      e :: ((keptIndices cands.length l2).map
        (fun n => cands.getD (n - 1).toNat defaultStyleExpr) ++
      e :: (keptIndices cands.length l3).map
        (fun n => cands.getD (n - 1).toNat defaultStyleExpr)) := by
    rw [hcv]
    simp only [List.map_append, List.map_cons]
    rw [← he]
  have h2 : (collectValid cands
      (l1 ++ JVal.jint idx :: (l2 ++ JVal.jint idx :: l3))).2 =
      (keptIndices cands.length l1).map
        (fun n => (cands.getD (n - 1).toNat defaultStyleExpr).id) ++
      e.id :: ((keptIndices cands.length l2).map
        (fun n => (cands.getD (n - 1).toNat defaultStyleExpr).id) ++
      e.id :: (keptIndices cands.length l3).map
        (fun n => (cands.getD (n - 1).toNat defaultStyleExpr).id)) := by
    rw [hcv]
    simp only [List.map_append, List.map_cons]
    rw [← he]
  refine ⟨?_, ?_, ?_, ?_, ?_⟩
  · rw [hsel]
    exact h1
  · rw [hsel]
    exact h2
  · rw [hsel]
    show 2 ≤ (collectValid cands
      (l1 ++ JVal.jint idx :: (l2 ++ JVal.jint idx :: l3))).1.count e
    rw [h1]
    simp only [List.count_append, List.count_cons_self]
    omega
  · rw [hsel]
    show 2 ≤ (collectValid cands
      (l1 ++ JVal.jint idx :: (l2 ++ JVal.jint idx :: l3))).2.count e.id
    rw [h2]
    simp only [List.count_append, List.count_cons_self]
    omega
  · intro i he1 he2 he3 hfm
    rw [hsel]
    show (if (collectValid cands
        (l1 ++ JVal.jint idx :: (l2 ++ JVal.jint idx :: l3))).1.isEmpty then db
      else update_expressions_count_batch now
        ((collectValid cands
          (l1 ++ JVal.jint idx :: (l2 ++ JVal.jint idx :: l3))).1.map toEntry)
        (6 / 1000) db).getD i defaultRecord =
      applyIncrement now (6 / 1000) (db.getD i defaultRecord)
    rw [h1, if_neg (by simp)]
    have hkentry : entryKey (toEntry e) =
        some (e.source_id, e.type, e.situation, e.style) := by
      simp [entryKey, toEntry, falsyStr, he1, he2, he3]
    have hkeymem : (e.source_id, e.type, e.situation, e.style) ∈
        dedupKeys (((keptIndices cands.length l1).map
          (fun n => cands.getD (n - 1).toNat defaultStyleExpr) ++
        e :: ((keptIndices cands.length l2).map
          (fun n => cands.getD (n - 1).toNat defaultStyleExpr) ++
        e :: (keptIndices cands.length l3).map
          (fun n => cands.getD (n - 1).toNat defaultStyleExpr))).map toEntry) := by
      apply dedupKeys_mem _ (toEntry e) _ _ hkentry
      exact List.mem_map_of_mem toEntry (by simp)
    unfold update_expressions_count_batch
    exact foldl_update_getD_first now (6 / 1000) _ (dedupKeys_nodup _) _ hkeymem db i hfm

/-- C10 witness: the response `[1, 2, 1]` over ten candidates: candidate 1
is returned twice (ids `[1, 2, 1]`), and the single matching record is
incremented exactly once. -/
theorem c10_select_duplicate_reinforced_once_witness :
    (select_suitable_expressions_llm true (fun _ => tenStyles)
      (fun _ => Except.ok "j")
      (fun _ => Except.ok (JVal.jobj [("selected_situations",
        JVal.jlist [JVal.jint 1, JVal.jint 2, JVal.jint 1])]))
      "bot" 0 "chat" 5 none
      [⟨1, "c", "style", "s1", "v1", 1, 0, none⟩]).exprs =
      [mkStyle 1, mkStyle 2, mkStyle 1] ∧
    (select_suitable_expressions_llm true (fun _ => tenStyles)
      (fun _ => Except.ok "j")
      (fun _ => Except.ok (JVal.jobj [("selected_situations",
        JVal.jlist [JVal.jint 1, JVal.jint 2, JVal.jint 1])]))
      "bot" 0 "chat" 5 none
      [⟨1, "c", "style", "s1", "v1", 1, 0, none⟩]).ids = [1, 2, 1] ∧
    2 ≤ (select_suitable_expressions_llm true (fun _ => tenStyles)
      (fun _ => Except.ok "j")
      (fun _ => Except.ok (JVal.jobj [("selected_situations",
        JVal.jlist [JVal.jint 1, JVal.jint 2, JVal.jint 1])]))
      "bot" 0 "chat" 5 none
      [⟨1, "c", "style", "s1", "v1", 1, 0, none⟩]).exprs.count (mkStyle 1) ∧
    (select_suitable_expressions_llm true (fun _ => tenStyles)
      (fun _ => Except.ok "j")
      (fun _ => Except.ok (JVal.jobj [("selected_situations",
        JVal.jlist [JVal.jint 1, JVal.jint 2, JVal.jint 1])]))
      "bot" 0 "chat" 5 none
      [⟨1, "c", "style", "s1", "v1", 1, 0, none⟩]).db.getD 0 defaultRecord =
      applyIncrement 0 (6 / 1000)
        (([⟨1, "c", "style", "s1", "v1", 1, 0, none⟩] :
          List ExprRecord).getD 0 defaultRecord) := by
  have h := c10_select_duplicate_reinforced_once (fun _ => tenStyles)
    (fun _ => Except.ok "j")
    (fun _ => Except.ok (JVal.jobj [("selected_situations",
      JVal.jlist [JVal.jint 1, JVal.jint 2, JVal.jint 1])]))
    "bot" 0 "chat" 5 none [⟨1, "c", "style", "s1", "v1", 1, 0, none⟩]
    tenStyles "j"
    [("selected_situations", JVal.jlist [JVal.jint 1, JVal.jint 2, JVal.jint 1])]
    [] [JVal.jint 2] [] 1
    rfl (by decide) (fun p => rfl) (by decide) rfl rfl (by decide)
    (mkStyle 1) (by decide)
  refine ⟨?_, ?_, ?_, ?_⟩
  · rw [h.1]
    decide
  · rw [h.2.1]
    decide
  · exact h.2.2.1
  · exact h.2.2.2.2 0 (by decide) (by decide) (by decide)
      ⟨by decide, by decide, fun j hj => absurd hj (by omega)⟩
end MaiBot
